import Mathlib

/-!
Verification development for the deputy-expense dashboard (src/app.py).

The program has three core pieces:
* `buscar_deputado_id` (app.py lines 12-37): looks a deputy up by name and
  returns id / nome / partido / uf of the first search result, or None.
* `buscar_todas_despesas` (app.py lines 42-73): a while-True pagination loop
  accumulating expense records until an empty page or a page without a
  "next" link; a requests.RequestException is caught, reported via st.error
  and the accumulator returned; any other exception escapes the function.
* the module-level aggregation (app.py lines 112-124): pd.to_numeric on the
  valorLiquido column, groupby tipoDespesa, sum, sort_values descending.

Side effects are made explicit: st.error / st.info output is part of the
returned value, an exception that escapes is an explicit error constructor,
and the unbounded while-loop takes a fuel argument (the spec itself notes
the loop need not terminate if upstream always reports a "next" link).
-/

/-! ### A computable codepoint-lexicographic order on strings.

pandas `groupby(sort=True)` orders group keys by Python string comparison,
which is lexicographic on code points; `String.ltb` from core does not
reduce in the kernel, so we define the same order on `String.toList`. -/

def charListLe : List Char → List Char → Bool
  | [], _ => true
  | _ :: _, [] => false
  | a :: as, b :: bs =>
    if a.toNat < b.toNat then true
    else if b.toNat < a.toNat then false
    else charListLe as bs

def strLe (a b : String) : Bool :=
  charListLe a.toList b.toList

def keyLE (a b : String) : Prop :=
  strLe a b = true

instance : DecidableRel keyLE :=
  fun a b => inferInstanceAs (Decidable (strLe a b = true))

/-! ### Numeric coercion (pd.to_numeric, app.py line 115).

`valorLiquido` arrives from JSON as a number or a decimal string; the
aggregation first coerces the whole column with `pd.to_numeric`, which
raises on the first non-coercible value.  Amounts are modelled as exact
rationals; the string case parses an optional sign, an integer part and an
optional fraction part, all digits. -/

inductive RawVal : Type
  | num (q : ℚ)
  | str (s : String)
deriving DecidableEq

inductive DataError : Type
  | dataFormatError
deriving DecidableEq

def digitVal? (c : Char) : Option Nat :=
  if 48 ≤ c.toNat ∧ c.toNat ≤ 57 then some (c.toNat - 48) else none

def digitsVal? : List Char → Option Nat
  | [] => some 0
  | c :: cs =>
    match digitVal? c, digitsVal? cs with
    | some d, some n => some (d * 10 ^ cs.length + n)
    | _, _ => none

def splitFrac : List Char → List Char × Option (List Char)
  | [] => ([], none)
  | c :: cs =>
    if c = '.' then ([], some cs)
    else
      let r := splitFrac cs
      (c :: r.1, r.2)

/-- The exact value of a sign, an integer part `n`, and `k` fraction digits
of value `f` : the rational (sign * (n·10^k + f)) / 10^k. -/
def ratOfParts (sign : ℤ) (n f k : Nat) : ℚ :=
  ((sign * (n * 10 ^ k + f) : ℤ) : ℚ) / (((10 : ℤ) ^ k : ℤ) : ℚ)

def parseDecimal (s : String) : Option ℚ :=
  let cs := s.toList
  let signBody : ℤ × List Char :=
    match cs with
    | '-' :: rest => (-1, rest)
    | _ => (1, cs)
  match splitFrac signBody.2 with
  | (ip, none) =>
    match ip, digitsVal? ip with
    | _ :: _, some n => some (ratOfParts signBody.1 n 0 0)
    | _, _ => none
  | (ip, some fp) =>
    match ip, fp, digitsVal? ip, digitsVal? fp with
    | _ :: _, _ :: _, some n, some f =>
      some (ratOfParts signBody.1 n f fp.length)
    | _, _, _, _ => none

instance {ε α : Type} [DecidableEq ε] [DecidableEq α] : DecidableEq (Except ε α) :=
  fun x y =>
    match x, y with
    | .ok a, .ok b =>
      if h : a = b then .isTrue (by rw [h]) else .isFalse (by intro t; cases t; exact h rfl)
    | .error a, .error b =>
      if h : a = b then .isTrue (by rw [h]) else .isFalse (by intro t; cases t; exact h rfl)
    | .ok _, .error _ => .isFalse (by intro t; cases t)
    | .error _, .ok _ => .isFalse (by intro t; cases t)

def to_numeric : RawVal → Except DataError ℚ
  | .num q => .ok q
  | .str s =>
    match parseDecimal s with
    | some q => .ok q
    | none => .error .dataFormatError

/-- The coerced value of a raw amount when coercion succeeds (defaulting to 0,
only ever used under a hypothesis that coercion succeeded). -/
def toQ (v : RawVal) : ℚ :=
  match to_numeric v with
  | .ok q => q
  | .error _ => 0

/-! ### The aggregation stage (app.py lines 105-124).

An expense record keeps only the two fields the aggregation reads. -/

structure RawExpense : Type where
  tipoDespesa : String
  valorLiquido : RawVal
deriving DecidableEq

/-- Coerce the valorLiquido column (app.py line 115): the whole column is
coerced at once and the first non-numeric value aborts with an error, as
pd.to_numeric does.  A success pairs each category with its exact amount. -/
def coerceExpenses : List RawExpense → Except DataError (List (String × ℚ))
  | [] => .ok []
  | r :: rs =>
    match to_numeric r.valorLiquido, coerceExpenses rs with
    | .ok q, .ok rest => .ok ((r.tipoDespesa, q) :: rest)
    | .error e, _ => .error e
    | _, .error e => .error e

/-- groupby('tipoDespesa')['valorLiquido'].sum() (app.py line 118):
distinct keys in ascending key order (groupby sorts keys), each paired with
the sum of the amounts of its rows. -/
def groupby_sum (rows : List (String × ℚ)) : List (String × ℚ) :=
  ((rows.map Prod.fst).dedup.insertionSort keyLE).map
    (fun k => (k, ((rows.filter (fun p => p.1 = k)).map Prod.snd).sum))

/-- The output ordering of app.py line 124: sort_values descending on the
summed amount (a deterministic, stable sort). -/
def amountGE (a b : String × ℚ) : Prop :=
  b.2 ≤ a.2

instance : DecidableRel amountGE :=
  fun a b => inferInstanceAs (Decidable (b.2 ≤ a.2))

def sort_values_desc (l : List (String × ℚ)) : List (String × ℚ) :=
  l.insertionSort amountGE

/-- The whole aggregation (app.py lines 112-124): coerce, group-and-sum,
sort descending.  `.error` is an exception escaping the (handler-free)
module-level code. -/
def despesas_agrupadas (rs : List RawExpense) : Except DataError (List (String × ℚ)) :=
  match coerceExpenses rs with
  | .error e => .error e
  | .ok rows => .ok (sort_values_desc (groupby_sum rows))

/-- What the presentation step after a successful fetch shows
(app.py lines 105-143): info banners, the chart and the table. -/
inductive UiMsg : Type
  | info (s : String)
  | chart (table : List (String × ℚ))
  | dataframe (table : List (String × ℚ))
deriving DecidableEq

/-- app.py lines 105-143: the post-fetch processing.  The first component
is what was rendered before any crash; the second is the exception that
escaped (there is no try/except around the aggregation), `none` when the
script ran to completion. -/
def processar_despesas (lista : List RawExpense) : List UiMsg × Option DataError :=
  match lista with
  | [] => ([UiMsg.info "Este deputado não possui registros de despesas."], none)
  | _ :: _ =>
    let banner := UiMsg.info
      ("Total de " ++ toString lista.length ++ " registros de despesa encontrados.")
    match despesas_agrupadas lista with
    | .error e => ([banner], some e)
    | .ok table => ([banner, UiMsg.chart table, UiMsg.dataframe table], none)

/-! ### The resolver, buscar_deputado_id (app.py lines 12-37).

The network interaction is modelled by its observable result: either a
requests.RequestException (timeout, raise_for_status on non-2xx, malformed
response) or the parsed value of the JSON `dados` array. -/

structure DeputadoRaw : Type where
  id : Int
  nome : String
  siglaPartido : String
  siglaUf : String
deriving DecidableEq

structure InfoDeputado : Type where
  id : Int
  nome : String
  partido : String
  uf : String
deriving DecidableEq

inductive SearchResponse : Type
  | transportError (msg : String)
  | ok (dados : List DeputadoRaw)
deriving DecidableEq

/-- The value returned together with the st.error text emitted, if any. -/
structure ResolverOutcome : Type where
  result : Option InfoDeputado
  errorMsg : Option String
deriving DecidableEq

def buscar_deputado_id : SearchResponse → ResolverOutcome
  | .transportError e => ⟨none, some ("Erro ao buscar deputado: " ++ e)⟩
  | .ok [] => ⟨none, none⟩
  | .ok (d :: _) => ⟨some ⟨d.id, d.nome, d.siglaPartido, d.siglaUf⟩, none⟩

/-! ### The paginated fetcher, buscar_todas_despesas (app.py lines 42-73).

A page response is a transport failure or a parsed JSON object; the JSON
may lack the `links` key, and a link entry may lack `rel` or `href` —
accessing a missing key raises a KeyError, which the loop's
`except requests.exceptions.RequestException` does not catch. -/

inductive PyError : Type
  | keyError
deriving DecidableEq

structure LinkJson : Type where
  rel : Option String
  href : Option String
deriving DecidableEq

structure PageJson (α : Type) : Type where
  dados : List α
  links : Option (List LinkJson)
deriving DecidableEq

inductive FetchResult (α : Type) : Type
  | transportError (msg : String)
  | page (p : PageJson α)
deriving DecidableEq

/-- app.py line 62, the dict comprehension over dados['links']: fails with
KeyError when a link entry lacks 'rel' or 'href'. -/
def links_dict : List LinkJson → Except PyError (List (String × String))
  | [] => .ok []
  | l :: ls =>
    match l.rel, l.href with
    | some r, some h =>
      match links_dict ls with
      | .ok d => .ok ((r, h) :: d)
      | .error e => .error e
    | _, _ => .error .keyError

/-- Accessing dados['links'] itself: KeyError when the key is absent. -/
def links_of : Option (List LinkJson) → Except PyError (List (String × String))
  | none => .error .keyError
  | some ls => links_dict ls

/-- app.py line 63: `'next' not in links` is the negation of this. -/
def hasNext (d : List (String × String)) : Bool :=
  d.any (fun kv => kv.1 = "next")

/-- The outcome of the fetch loop: a normal return carries the accumulated
records, the pages requested in order, and the (page, message) reported via
st.error when a transport error ended the loop; `uncaught` is an exception
escaping the function (losing the accumulator); `fuelOut` only signals that
the given fuel did not suffice to finish the unbounded while-loop. -/
inductive FetchLoopResult (α : Type) : Type
  | ok (records : List α) (requested : List Nat) (reportedError : Option (Nat × String))
  | uncaught (e : PyError)
  | fuelOut
deriving DecidableEq

/-- The while-True loop of app.py lines 48-71, one constructor-matched
iteration per unit of fuel.  `up` maps a page number to the upstream
response for that page (for the fixed deputado_id). -/
def fetchLoop (up : Nat → FetchResult α) : Nat → Nat → List α → List Nat → FetchLoopResult α
  | 0, _, _, _ => .fuelOut
  | fuel + 1, pagina, acc, reqs =>
    match up pagina with
    | .transportError msg => .ok acc (reqs ++ [pagina]) (some (pagina, msg))
    | .page p =>
      match p.dados with
      | [] => .ok acc (reqs ++ [pagina]) none
      | d :: ds =>
        match links_of p.links with
        | .error e => .uncaught e
        | .ok dict =>
          if hasNext dict then
            fetchLoop up fuel (pagina + 1) (acc ++ (d :: ds)) (reqs ++ [pagina])
          else
            .ok (acc ++ (d :: ds)) (reqs ++ [pagina]) none

def buscar_todas_despesas (up : Nat → FetchResult α) (fuel : Nat) : FetchLoopResult α :=
  fetchLoop up fuel 1 [] []

/-- The records carried by the response for page `i` (empty for a
transport failure; only used on pages known to be successful). -/
def pageDados (up : Nat → FetchResult α) (i : Nat) : List α :=
  match up i with
  | .page p => p.dados
  | .transportError _ => []

/-- Concatenated records of the `m` pages `j, j+1, ..., j+m-1`. -/
def dadosUpTo (up : Nat → FetchResult α) (j : Nat) : Nat → List α
  | 0 => []
  | m + 1 => pageDados up j ++ dadosUpTo up (j + 1) m

/-- The page numbers `j, j+1, ..., j+m-1`. -/
def pagesFrom (j : Nat) : Nat → List Nat
  | 0 => []
  | m + 1 => j :: pagesFrom (j + 1) m

/-- Page `i` is a successful, non-terminal page: non-empty dados, a
well-formed links set, and a "next" link present. -/
def goodNextPage (up : Nat → FetchResult α) (i : Nat) : Prop :=
  ∃ p d, up i = .page p ∧ p.dados ≠ [] ∧ links_of p.links = .ok d ∧ hasNext d = true

/-- Page `i` ends pagination normally: either its dados array is empty, or
it has records, well-formed links, and no "next" link. -/
def terminalPage (up : Nat → FetchResult α) (i : Nat) : Prop :=
  ∃ p, up i = .page p ∧
    (p.dados = [] ∨
      (p.dados ≠ [] ∧ ∃ d, links_of p.links = .ok d ∧ hasNext d = false))

/-! ### Concrete data for the scenario instantiations. -/

def sampleC : List RawExpense :=
  [⟨"Combustível", .str "150.00"⟩, ⟨"Combustível", .str "50.00"⟩,
   ⟨"Passagem Aérea", .str "800.00"⟩]

/-- `sampleC` with its records rotated. -/
def sampleCrot : List RawExpense :=
  [⟨"Passagem Aérea", .str "800.00"⟩, ⟨"Combustível", .str "150.00"⟩,
   ⟨"Combustível", .str "50.00"⟩]

def sampleBad : List RawExpense :=
  [⟨"X", .str "abc"⟩]

def nextLinks : List LinkJson :=
  [⟨some "self", some "u"⟩, ⟨some "next", some "u2"⟩]

def lastLinks : List LinkJson :=
  [⟨some "self", some "u"⟩, ⟨some "last", some "u2"⟩]

/-- Scenario B upstream: page 1 has 100 records and a next link, page 2 has
37 records and no next link. -/
def upB : Nat → FetchResult Nat := fun n =>
  match n with
  | 1 => .page ⟨List.range 100, some nextLinks⟩
  | 2 => .page ⟨List.range 37, some lastLinks⟩
  | _ => .transportError "unreachable"

/-- Scenario D upstream: pages 1 and 2 succeed with next links, the request
for page 3 fails with a transport error. -/
def upD : Nat → FetchResult Nat := fun n =>
  match n with
  | 1 => .page ⟨[10, 11], some nextLinks⟩
  | 2 => .page ⟨[20], some nextLinks⟩
  | 3 => .transportError "timeout"
  | _ => .page ⟨[99], some nextLinks⟩

/-- An upstream whose first page is a valid empty page. -/
def upEmpty1 : Nat → FetchResult Nat := fun _ => .page ⟨[], some []⟩

/-- An upstream whose first request fails with a transport error. -/
def upFail1 : Nat → FetchResult Nat := fun _ => .transportError "connection refused"

/-- An upstream whose first page succeeds with records but whose JSON has
no `links` key. -/
def upNoLinksKey : Nat → FetchResult Nat := fun _ => .page ⟨[1, 2], none⟩

/-- An upstream whose first page succeeds with records but whose link
entries lack the `rel` key. -/
def upNoRel : Nat → FetchResult Nat := fun _ => .page ⟨[1], some [⟨none, some "u"⟩]⟩

/-! ### Order properties of the codepoint-lexicographic string order. -/

lemma charListLe_total : ∀ a b : List Char, charListLe a b = true ∨ charListLe b a = true
  | [], _ => by left; rfl
  | _ :: _, [] => by right; rfl
  | x :: xs, y :: ys => by
    rcases Nat.lt_trichotomy x.toNat y.toNat with h | h | h
    · left; simp [charListLe, h]
    · rcases charListLe_total xs ys with ih | ih
      · left; simp [charListLe, h, ih]
      · right; simp [charListLe, h.symm, ih]
    · right; simp [charListLe, h]

lemma charListLe_trans : ∀ a b c : List Char,
    charListLe a b = true → charListLe b c = true → charListLe a c = true
  | [], _, _ => by intro _ _; rfl
  | x :: xs, [], _ => by intro hab _; simp [charListLe] at hab
  | x :: xs, y :: ys, [] => by intro _ hbc; simp [charListLe] at hbc
  | x :: xs, y :: ys, z :: zs => by
    intro hab hbc
    simp only [charListLe] at hab hbc ⊢
    split_ifs at hab hbc ⊢ with h1 h2 h3 h4 h5 h6 <;>
      first
        | rfl
        | omega
        | (exact hab)
        | (exact hbc)
        | (exact charListLe_trans xs ys zs hab hbc)

lemma charListLe_antisymm : ∀ a b : List Char,
    charListLe a b = true → charListLe b a = true → a = b
  | [], [] => by intro _ _; rfl
  | [], _ :: _ => by intro _ hba; simp [charListLe] at hba
  | _ :: _, [] => by intro hab _; simp [charListLe] at hab
  | x :: xs, y :: ys => by
    intro hab hba
    simp only [charListLe] at hab hba
    by_cases h1 : x.toNat < y.toNat
    · rw [if_neg (by omega), if_pos h1] at hba
      exact absurd hba (by simp)
    · by_cases h2 : y.toNat < x.toNat
      · rw [if_neg h1, if_pos h2] at hab
        exact absurd hab (by simp)
      · rw [if_neg h1, if_neg h2] at hab
        rw [if_neg h2, if_neg h1] at hba
        have hxy : x.toNat = y.toNat := by omega
        rw [Char.ext (UInt32.ext hxy), charListLe_antisymm xs ys hab hba]

instance : IsTotal String keyLE :=
  ⟨fun a b => charListLe_total a.toList b.toList⟩

instance : IsTrans String keyLE :=
  ⟨fun a b c => charListLe_trans a.toList b.toList c.toList⟩

instance : IsAntisymm String keyLE :=
  ⟨fun a b hab hba => String.ext (charListLe_antisymm a.toList b.toList hab hba)⟩

instance : IsTotal (String × ℚ) amountGE :=
  ⟨fun a b => le_total b.2 a.2⟩

instance : IsTrans (String × ℚ) amountGE :=
  ⟨fun _ _ _ hab hbc => le_trans hbc hab⟩

/-- C4: for every search response, a non-empty result list makes the
Resolver return a record built from exactly the first element (its id,
display name, party and state code), and an empty result list makes it
return None with no error reported. -/
theorem resolver_first_or_none :
    (∀ (d : DeputadoRaw) (rest : List DeputadoRaw),
      buscar_deputado_id (.ok (d :: rest)) =
        ⟨some ⟨d.id, d.nome, d.siglaPartido, d.siglaUf⟩, none⟩) ∧
    buscar_deputado_id (.ok []) = ⟨none, none⟩ :=
  ⟨fun _ _ => rfl, rfl⟩

/-- Scenario A: a single match id 204379 yields exactly that identity. -/
theorem resolver_first_or_none_witness :
    buscar_deputado_id (.ok [⟨204379, "Maria do Rosário", "PT", "RS"⟩]) =
      ⟨some ⟨204379, "Maria do Rosário", "PT", "RS"⟩, none⟩ :=
  resolver_first_or_none.1 ⟨204379, "Maria do Rosário", "PT", "RS"⟩ []

/-- C5: a transport-level failure of the search makes the Resolver report
an error carrying the underlying cause, an outcome distinct from the
silent None of an empty result set. -/
theorem resolver_transport_failure (msg : String) :
    buscar_deputado_id (.transportError msg) =
      ⟨none, some ("Erro ao buscar deputado: " ++ msg)⟩ ∧
    buscar_deputado_id (.transportError msg) ≠ buscar_deputado_id (.ok []) := by
  refine ⟨rfl, ?_⟩
  intro h
  simp [buscar_deputado_id] at h

/-- A concrete transport failure, distinct from the empty-result outcome. -/
theorem resolver_transport_failure_witness :
    buscar_deputado_id (.transportError "timeout") =
      ⟨none, some ("Erro ao buscar deputado: " ++ "timeout")⟩ ∧
    buscar_deputado_id (.transportError "timeout") ≠ buscar_deputado_id (.ok []) :=
  resolver_transport_failure "timeout"

/-! ### One-iteration lemmas for the fetch loop. -/

lemma fetchLoop_transport (up : Nat → FetchResult α) (f j : Nat) (acc : List α)
    (reqs : List Nat) (msg : String) (hf : 1 ≤ f) (h : up j = .transportError msg) :
    fetchLoop up f j acc reqs = .ok acc (reqs ++ [j]) (some (j, msg)) := by
  obtain ⟨f', rfl⟩ : ∃ f', f = f' + 1 := ⟨f - 1, by omega⟩
  simp [fetchLoop, h]

lemma fetchLoop_terminal (up : Nat → FetchResult α) (f j : Nat) (acc : List α)
    (reqs : List Nat) (hf : 1 ≤ f) (ht : terminalPage up j) :
    fetchLoop up f j acc reqs = .ok (acc ++ pageDados up j) (reqs ++ [j]) none := by
  obtain ⟨f', rfl⟩ : ∃ f', f = f' + 1 := ⟨f - 1, by omega⟩
  obtain ⟨p, hp, hcase⟩ := ht
  rcases hcase with hd | ⟨hne, d, hl, hn⟩
  · simp [fetchLoop, hp, hd, pageDados]
  · obtain ⟨x, xs, hd⟩ := List.exists_cons_of_ne_nil hne
    simp [fetchLoop, hp, hd, hl, hn, pageDados]

lemma fetchLoop_uncaught (up : Nat → FetchResult α) (f j : Nat) (acc : List α)
    (reqs : List Nat) (p : PageJson α) (e : PyError) (hf : 1 ≤ f)
    (hp : up j = .page p) (hd : p.dados ≠ []) (hl : links_of p.links = .error e) :
    fetchLoop up f j acc reqs = .uncaught e := by
  obtain ⟨f', rfl⟩ : ∃ f', f = f' + 1 := ⟨f - 1, by omega⟩
  obtain ⟨x, xs, hdd⟩ := List.exists_cons_of_ne_nil hd
  simp [fetchLoop, hp, hdd, hl]

/-- Running the loop across `m` consecutive non-terminal pages appends their
records and page numbers and continues at page `j + m`. -/
lemma fetchLoop_skip (up : Nat → FetchResult α) :
    ∀ (m f j : Nat) (acc : List α) (reqs : List Nat),
      (∀ i, i < m → goodNextPage up (j + i)) →
      fetchLoop up (m + f) j acc reqs
        = fetchLoop up f (j + m) (acc ++ dadosUpTo up j m) (reqs ++ pagesFrom j m)
  | 0, f, j, acc, reqs => by
    intro _
    simp [dadosUpTo, pagesFrom]
  | m + 1, f, j, acc, reqs => by
    intro h
    obtain ⟨p, d, hp, hne, hl, hn⟩ := h 0 (Nat.succ_pos m)
    rw [Nat.add_zero] at hp
    obtain ⟨x, xs, hd⟩ := List.exists_cons_of_ne_nil hne
    have hstep : fetchLoop up (m + 1 + f) j acc reqs
        = fetchLoop up (m + f) (j + 1) (acc ++ p.dados) (reqs ++ [j]) := by
      rw [show m + 1 + f = (m + f) + 1 from by omega]
      simp [fetchLoop, hp, hd, hl, hn]
    rw [hstep]
    rw [fetchLoop_skip up m f (j + 1) (acc ++ p.dados) (reqs ++ [j])
        (fun i hi => by
          have hg := h (i + 1) (by omega)
          rwa [show j + (i + 1) = j + 1 + i from by omega] at hg)]
    rw [show (acc ++ p.dados) ++ dadosUpTo up (j + 1) m = acc ++ dadosUpTo up j (m + 1)
        from by simp [dadosUpTo, pageDados, hp, List.append_assoc]]
    rw [show (reqs ++ [j]) ++ pagesFrom (j + 1) m = reqs ++ pagesFrom j (m + 1)
        from by simp [pagesFrom]]
    rw [show j + 1 + m = j + (m + 1) from by omega]

lemma dadosUpTo_snoc (up : Nat → FetchResult α) :
    ∀ (m j : Nat), dadosUpTo up j (m + 1) = dadosUpTo up j m ++ pageDados up (j + m)
  | 0, j => by simp [dadosUpTo]
  | m + 1, j => by
    rw [dadosUpTo, dadosUpTo_snoc up m (j + 1), dadosUpTo]
    rw [show j + 1 + m = j + (m + 1) from by omega, List.append_assoc]

lemma pagesFrom_snoc : ∀ (m j : Nat), pagesFrom j (m + 1) = pagesFrom j m ++ [j + m]
  | 0, j => by simp [pagesFrom]
  | m + 1, j => by
    rw [pagesFrom, pagesFrom_snoc m (j + 1), pagesFrom]
    rw [show j + 1 + m = j + (m + 1) from by omega, List.cons_append]

lemma dadosUpTo_length (up : Nat → FetchResult α) :
    ∀ (m j : Nat), (dadosUpTo up j m).length
      = ((pagesFrom j m).map (fun i => (pageDados up i).length)).sum
  | 0, _ => rfl
  | m + 1, j => by
    simp [dadosUpTo, pagesFrom, dadosUpTo_length up m (j + 1)]

/-- C1: for every upstream page sequence in which page k is the first page
that is either empty or carries no "next" link (all earlier pages being
full pages with a "next" link), the fetcher issues exactly the requests
for pages 1..k, terminates (for any fuel of at least k iterations), and
returns the concatenation of the records of pages 1..k in upstream order;
the returned length is the sum of the per-page record counts. -/
theorem fetcher_pagination_postcondition {α : Type} (up : Nat → FetchResult α)
    (k fuel : Nat) (hk : 1 ≤ k) (hfuel : k ≤ fuel)
    (hgood : ∀ i, 1 ≤ i → i < k → goodNextPage up i)
    (hterm : terminalPage up k) :
    buscar_todas_despesas up fuel = .ok (dadosUpTo up 1 k) (pagesFrom 1 k) none ∧
    (dadosUpTo up 1 k).length
      = ((pagesFrom 1 k).map (fun i => (pageDados up i).length)).sum := by
  have hd : dadosUpTo up 1 (k - 1) ++ pageDados up k = dadosUpTo up 1 k := by
    have h2 := dadosUpTo_snoc up (k - 1) 1
    rw [show 1 + (k - 1) = k from by omega, show k - 1 + 1 = k from by omega] at h2
    exact h2.symm
  have hpg : pagesFrom 1 (k - 1) ++ [k] = pagesFrom 1 k := by
    have h2 := pagesFrom_snoc (k - 1) 1
    rw [show 1 + (k - 1) = k from by omega, show k - 1 + 1 = k from by omega] at h2
    exact h2.symm
  constructor
  · rw [buscar_todas_despesas]
    rw [show fuel = (k - 1) + (fuel - (k - 1)) from by omega]
    rw [fetchLoop_skip up (k - 1) (fuel - (k - 1)) 1 [] []
        (fun i hi => hgood (1 + i) (by omega) (by omega))]
    rw [show 1 + (k - 1) = k from by omega]
    rw [fetchLoop_terminal up (fuel - (k - 1)) k _ _ (by omega) hterm]
    rw [List.nil_append, List.nil_append, hd, hpg]
  · exact dadosUpTo_length up k 1

set_option maxRecDepth 8192 in
/-- Scenario B: page 1 with 100 records and a next link, page 2 with 37
records and no next link: 137 records from exactly the requests [1, 2]. -/
theorem fetcher_pagination_postcondition_witness :
    buscar_todas_despesas upB 2 = .ok (dadosUpTo upB 1 2) (pagesFrom 1 2) none ∧
    (dadosUpTo upB 1 2).length = 137 ∧ pagesFrom 1 2 = [1, 2] := by
  have h := fetcher_pagination_postcondition upB 2 2 (by omega) (by omega)
    (fun i h1 h2 => by
      have hi : i = 1 := by omega
      subst hi
      exact ⟨⟨List.range 100, some nextLinks⟩, [("self", "u"), ("next", "u2")],
        rfl, by decide, rfl, rfl⟩)
    ⟨⟨List.range 37, some lastLinks⟩, rfl,
      Or.inr ⟨by decide, [("self", "u"), ("last", "u2")], rfl, rfl⟩⟩
  exact ⟨h.1, by decide, by decide⟩

/-- C6: when the request for page N fails with a transport error after
pages 1..N-1 succeeded with next links, the fetcher returns normally with
the accumulator of pages 1..N-1 together with a reported error naming
page N (having issued the requests 1..N). -/
theorem fetcher_best_effort_degradation {α : Type} (up : Nat → FetchResult α)
    (N fuel : Nat) (msg : String) (hN : 1 ≤ N) (hfuel : N ≤ fuel)
    (hgood : ∀ i, 1 ≤ i → i < N → goodNextPage up i)
    (hfail : up N = .transportError msg) :
    buscar_todas_despesas up fuel
      = .ok (dadosUpTo up 1 (N - 1)) (pagesFrom 1 N) (some (N, msg)) := by
  rw [buscar_todas_despesas]
  rw [show fuel = (N - 1) + (fuel - (N - 1)) from by omega]
  rw [fetchLoop_skip up (N - 1) (fuel - (N - 1)) 1 [] []
      (fun i hi => hgood (1 + i) (by omega) (by omega))]
  rw [show 1 + (N - 1) = N from by omega]
  rw [fetchLoop_transport up (fuel - (N - 1)) N _ _ msg (by omega) hfail]
  have hpg : pagesFrom 1 (N - 1) ++ [N] = pagesFrom 1 N := by
    have h2 := pagesFrom_snoc (N - 1) 1
    rw [show 1 + (N - 1) = N from by omega, show N - 1 + 1 = N from by omega] at h2
    exact h2.symm
  rw [List.nil_append, List.nil_append, hpg]

/-- Scenario D: page 3 fails with a transport error, so the fetcher
returns the records of pages 1-2 plus a reported error naming page 3. -/
theorem fetcher_best_effort_degradation_witness :
    buscar_todas_despesas upD 5 =
      .ok (dadosUpTo upD 1 2) (pagesFrom 1 3) (some (3, "timeout")) ∧
    dadosUpTo upD 1 2 = [10, 11, 20] ∧ pagesFrom 1 3 = [1, 2, 3] := by
  have h := fetcher_best_effort_degradation upD 3 5 "timeout" (by omega) (by omega)
    (fun i h1 h2 => by
      have hi : i = 1 ∨ i = 2 := by omega
      rcases hi with hi | hi <;> subst hi
      · exact ⟨⟨[10, 11], some nextLinks⟩, [("self", "u"), ("next", "u2")],
          rfl, by decide, rfl, rfl⟩
      · exact ⟨⟨[20], some nextLinks⟩, [("self", "u"), ("next", "u2")],
          rfl, by decide, rfl, rfl⟩)
    rfl
  exact ⟨h, by decide, by decide⟩

/-- C9: the outcome of an upstream whose page 1 is a valid empty page is
distinct from that of an upstream whose page-1 request fails: the former is
the empty record list with no reported error, the latter the empty record
list together with a reported error naming page 1. -/
theorem fetcher_distinguishes_empty_from_failure {α : Type}
    (upA upF : Nat → FetchResult α) (fuel : Nat) (hfuel : 1 ≤ fuel)
    (p : PageJson α) (hE : upA 1 = .page p) (hd : p.dados = [])
    (msg : String) (hF : upF 1 = .transportError msg) :
    buscar_todas_despesas upA fuel = .ok [] [1] none ∧
    buscar_todas_despesas upF fuel = .ok [] [1] (some (1, msg)) ∧
    buscar_todas_despesas upA fuel ≠ buscar_todas_despesas upF fuel := by
  have h1 : buscar_todas_despesas upA fuel = .ok [] [1] none := by
    rw [buscar_todas_despesas, fetchLoop_terminal upA fuel 1 [] [] hfuel ⟨p, hE, Or.inl hd⟩]
    simp [pageDados, hE, hd]
  have h2 : buscar_todas_despesas upF fuel = .ok [] [1] (some (1, msg)) := by
    rw [buscar_todas_despesas, fetchLoop_transport upF fuel 1 [] [] msg hfuel hF]
    rfl
  refine ⟨h1, h2, ?_⟩
  rw [h1, h2]
  intro hcontra
  simp at hcontra

/-- A concrete empty upstream versus a concrete failing upstream. -/
theorem fetcher_distinguishes_empty_from_failure_witness :
    buscar_todas_despesas upEmpty1 1 = .ok [] [1] none ∧
    buscar_todas_despesas upFail1 1 = .ok [] [1] (some (1, "connection refused")) ∧
    buscar_todas_despesas upEmpty1 1 ≠ buscar_todas_despesas upFail1 1 :=
  fetcher_distinguishes_empty_from_failure upEmpty1 upFail1 1 (by omega)
    ⟨[], some []⟩ rfl rfl "connection refused" rfl

/-- C10: a successful page whose JSON lacks the links key (or whose link
entries lack rel/href) raises an exception the fetcher's
RequestException handler does not catch: it escapes
buscar_todas_despesas, and no accumulator is returned. -/
theorem fetcher_malformed_links_escapes {α : Type} (up : Nat → FetchResult α)
    (N fuel : Nat) (p : PageJson α) (e : PyError) (hN : 1 ≤ N) (hfuel : N ≤ fuel)
    (hgood : ∀ i, 1 ≤ i → i < N → goodNextPage up i)
    (hp : up N = .page p) (hd : p.dados ≠ []) (hl : links_of p.links = .error e) :
    buscar_todas_despesas up fuel = .uncaught e := by
  rw [buscar_todas_despesas]
  rw [show fuel = (N - 1) + (fuel - (N - 1)) from by omega]
  rw [fetchLoop_skip up (N - 1) (fuel - (N - 1)) 1 [] []
      (fun i hi => hgood (1 + i) (by omega) (by omega))]
  rw [show 1 + (N - 1) = N from by omega]
  exact fetchLoop_uncaught up (fuel - (N - 1)) N _ _ p e (by omega) hp hd hl

/-- A missing links key and a link entry without rel both escape. -/
theorem fetcher_malformed_links_escapes_witness :
    buscar_todas_despesas upNoLinksKey 1 = .uncaught .keyError ∧
    buscar_todas_despesas upNoRel 1 = .uncaught .keyError := by
  constructor
  · exact fetcher_malformed_links_escapes upNoLinksKey 1 1 ⟨[1, 2], none⟩ .keyError
      (by omega) (by omega) (fun i h1 h2 => absurd h2 (by omega)) rfl (by decide) rfl
  · exact fetcher_malformed_links_escapes upNoRel 1 1 ⟨[1], some [⟨none, some "u"⟩]⟩
      .keyError (by omega) (by omega) (fun i h1 h2 => absurd h2 (by omega)) rfl
      (by decide) rfl

/-! ### Lemmas about the aggregation. -/

lemma toQ_eq (v : RawVal) (q : ℚ) (h : to_numeric v = .ok q) : toQ v = q := by
  rw [toQ, h]

lemma to_numeric_total (v : RawVal) :
    to_numeric v = .ok (toQ v) ∨ to_numeric v = .error .dataFormatError := by
  cases h : to_numeric v with
  | ok q => exact Or.inl (by rw [toQ_eq v q h])
  | error e => exact Or.inr (by cases e; rfl)

lemma coerceExpenses_ok_shape : ∀ (rs : List RawExpense) (rows : List (String × ℚ)),
    coerceExpenses rs = .ok rows →
    rows = rs.map (fun r => (r.tipoDespesa, toQ r.valorLiquido))
  | [], rows => by
    intro h
    cases h
    rfl
  | r :: rs, rows => by
    intro h
    cases h1 : to_numeric r.valorLiquido with
    | error e =>
      simp only [coerceExpenses, h1] at h
      exact Except.noConfusion h
    | ok q =>
      cases h2 : coerceExpenses rs with
      | error e =>
        simp only [coerceExpenses, h1, h2] at h
        exact Except.noConfusion h
      | ok rest =>
        simp only [coerceExpenses, h1, h2] at h
        have h' : (r.tipoDespesa, q) :: rest = rows := Except.ok.inj h
        rw [← h', List.map_cons, toQ_eq r.valorLiquido q h1,
          ← coerceExpenses_ok_shape rs rest h2]

lemma coerceExpenses_ok_of_all : ∀ (rs : List RawExpense),
    (∀ r ∈ rs, to_numeric r.valorLiquido = .ok (toQ r.valorLiquido)) →
    coerceExpenses rs = .ok (rs.map (fun r => (r.tipoDespesa, toQ r.valorLiquido)))
  | [] => fun _ => rfl
  | r :: rs => fun h => by
    have h1 := h r (List.mem_cons_self r rs)
    have htail := coerceExpenses_ok_of_all rs (fun x hx => h x (List.mem_cons_of_mem r hx))
    simp only [coerceExpenses, h1, htail, List.map_cons]

lemma coerceExpenses_error : ∀ (rs : List RawExpense),
    (∃ r ∈ rs, to_numeric r.valorLiquido = .error .dataFormatError) →
    coerceExpenses rs = .error .dataFormatError
  | [] => by
    rintro ⟨r, hr, -⟩
    exact absurd hr (List.not_mem_nil r)
  | r :: rs => by
    rintro ⟨r', hr', hbad⟩
    cases h1 : to_numeric r.valorLiquido with
    | error e => cases e; simp only [coerceExpenses, h1]
    | ok q =>
      have htail : ∃ x ∈ rs, to_numeric x.valorLiquido = .error .dataFormatError := by
        rcases List.mem_cons.mp hr' with rfl | hmem
        · rw [h1] at hbad; cases hbad
        · exact ⟨r', hmem, hbad⟩
      simp only [coerceExpenses, h1, coerceExpenses_error rs htail]

lemma sortedKeys_perm (rows : List (String × ℚ)) :
    ((rows.map Prod.fst).dedup.insertionSort keyLE).Perm (rows.map Prod.fst).dedup :=
  List.perm_insertionSort keyLE _

lemma sortedKeys_nodup (rows : List (String × ℚ)) :
    ((rows.map Prod.fst).dedup.insertionSort keyLE).Nodup :=
  (sortedKeys_perm rows).nodup_iff.mpr (List.nodup_dedup _)

lemma mem_sortedKeys (rows : List (String × ℚ)) (p : String × ℚ) (hp : p ∈ rows) :
    p.1 ∈ (rows.map Prod.fst).dedup.insertionSort keyLE :=
  (sortedKeys_perm rows).mem_iff.mpr (List.mem_dedup.mpr (List.mem_map_of_mem Prod.fst hp))

/-- A Nodup key list covering every row's key partitions the total sum. -/
lemma sum_filter_keys : ∀ (keys : List String) (rows : List (String × ℚ)),
    keys.Nodup → (∀ p ∈ rows, p.1 ∈ keys) →
    (keys.map (fun k => ((rows.filter (fun p => p.1 = k)).map Prod.snd).sum)).sum
      = (rows.map Prod.snd).sum
  | [], rows => by
    intro _ hcov
    match rows with
    | [] => rfl
    | p :: ps => exact absurd (hcov p (List.mem_cons_self p ps)) (List.not_mem_nil p.1)
  | k :: ks, rows => by
    intro hnd hcov
    have hk : k ∉ ks := (List.nodup_cons.mp hnd).1
    have hnd' : ks.Nodup := (List.nodup_cons.mp hnd).2
    have hsplit : ((rows.filter (fun p => decide (p.1 = k))).map Prod.snd).sum
        + ((rows.filter (fun p => !decide (p.1 = k))).map Prod.snd).sum
        = (rows.map Prod.snd).sum := by
      have hp := (List.filter_append_perm (fun p => decide (p.1 = k)) rows).map Prod.snd
      rw [List.map_append] at hp
      rw [← hp.sum_eq, List.sum_append]
    have hcov' : ∀ p ∈ rows.filter (fun p => !decide (p.1 = k)), p.1 ∈ ks := by
      intro p hp
      have hmem := List.mem_filter.mp hp
      have hne : p.1 ≠ k := by simpa using hmem.2
      rcases List.mem_cons.mp (hcov p hmem.1) with h | h
      · exact absurd h hne
      · exact h
    have htail : ∀ k' ∈ ks,
        ((rows.filter (fun p => p.1 = k')).map Prod.snd).sum
          = (((rows.filter (fun p => !decide (p.1 = k))).filter
              (fun p => p.1 = k')).map Prod.snd).sum := by
      intro k' hk'
      have hne : k' ≠ k := fun hcontra => hk (hcontra ▸ hk')
      rw [List.filter_filter]
      have hsame : rows.filter (fun p => decide (p.1 = k'))
          = rows.filter (fun a => decide (a.1 = k') && !decide (a.1 = k)) := by
        apply List.filter_congr
        intro p _
        by_cases hpk : p.1 = k'
        · simp [hpk, hne]
        · simp [hpk]
      rw [hsame]
    rw [List.map_cons, List.sum_cons, List.map_congr_left htail,
      sum_filter_keys ks (rows.filter (fun p => !decide (p.1 = k))) hnd' hcov']
    exact hsplit

lemma groupby_sum_total (rows : List (String × ℚ)) :
    ((groupby_sum rows).map Prod.snd).sum = (rows.map Prod.snd).sum := by
  rw [groupby_sum, List.map_map]
  exact sum_filter_keys _ rows (sortedKeys_nodup rows) (fun p hp => mem_sortedKeys rows p hp)

lemma groupby_sum_perm (rows₁ rows₂ : List (String × ℚ)) (h : rows₁.Perm rows₂) :
    groupby_sum rows₁ = groupby_sum rows₂ := by
  have hkeys : (rows₁.map Prod.fst).dedup.insertionSort keyLE
      = (rows₂.map Prod.fst).dedup.insertionSort keyLE :=
    @List.eq_of_perm_of_sorted String keyLE _ _ _
      ((List.perm_insertionSort keyLE _).trans
        (((h.map Prod.fst).dedup).trans (List.perm_insertionSort keyLE _).symm))
      (List.sorted_insertionSort keyLE _)
      (List.sorted_insertionSort keyLE _)
  rw [groupby_sum, groupby_sum, hkeys]
  apply List.map_congr_left
  intro k _
  rw [((h.filter (fun p => p.1 = k)).map Prod.snd).sum_eq]

/-! ### Exact evaluations for the concrete scenario data.

Rational arithmetic does not reduce inside the kernel, so the concrete
values are first exposed in `ratOfParts` form (which is definitional) and
then normalised. -/

lemma to_numeric_150 : to_numeric (.str "150.00") = .ok (150 : ℚ) := by
  rw [show to_numeric (.str "150.00") = .ok (ratOfParts 1 150 0 2) from rfl]
  unfold ratOfParts
  norm_num

lemma to_numeric_50 : to_numeric (.str "50.00") = .ok (50 : ℚ) := by
  rw [show to_numeric (.str "50.00") = .ok (ratOfParts 1 50 0 2) from rfl]
  unfold ratOfParts
  norm_num

lemma to_numeric_800 : to_numeric (.str "800.00") = .ok (800 : ℚ) := by
  rw [show to_numeric (.str "800.00") = .ok (ratOfParts 1 800 0 2) from rfl]
  unfold ratOfParts
  norm_num

lemma coerceExpenses_sampleC : coerceExpenses sampleC =
    .ok [("Combustível", (150 : ℚ)), ("Combustível", 50), ("Passagem Aérea", 800)] := by
  simp [sampleC, coerceExpenses, to_numeric_150, to_numeric_50, to_numeric_800]

lemma groupby_sum_sampleC :
    groupby_sum [("Combustível", (150 : ℚ)), ("Combustível", 50), ("Passagem Aérea", 800)]
      = [("Combustível", 200), ("Passagem Aérea", 800)] := by
  rw [groupby_sum]
  rw [show (([("Combustível", (150 : ℚ)), ("Combustível", 50),
      ("Passagem Aérea", 800)].map Prod.fst).dedup.insertionSort keyLE)
      = ["Combustível", "Passagem Aérea"] by decide]
  simp +decide [List.filter]
  norm_num

lemma despesas_agrupadas_sampleC : despesas_agrupadas sampleC
    = .ok [("Passagem Aérea", (800 : ℚ)), ("Combustível", 200)] := by
  simp only [despesas_agrupadas, coerceExpenses_sampleC, groupby_sum_sampleC]
  rw [show sort_values_desc [("Combustível", (200 : ℚ)), ("Passagem Aérea", 800)]
      = [("Passagem Aérea", 800), ("Combustível", 200)] by decide]

/-- C2: whenever the aggregation succeeds, the sum of the per-category
totals equals the sum of the coerced net amounts of all input records
(exactly, over ℚ). -/
theorem aggregator_sum_invariant (rs : List RawExpense) (out : List (String × ℚ))
    (h : despesas_agrupadas rs = .ok out) :
    (out.map Prod.snd).sum = (rs.map (fun r => toQ r.valorLiquido)).sum := by
  cases hc : coerceExpenses rs with
  | error e =>
    simp only [despesas_agrupadas, hc] at h
    exact Except.noConfusion h
  | ok rows =>
    simp only [despesas_agrupadas, hc] at h
    have hout : sort_values_desc (groupby_sum rows) = out := Except.ok.inj h
    rw [← hout, sort_values_desc]
    rw [((List.perm_insertionSort amountGE (groupby_sum rows)).map Prod.snd).sum_eq]
    rw [groupby_sum_total]
    rw [coerceExpenses_ok_shape rs rows hc, List.map_map]
    rfl

/-- Scenario C instantiation of the sum invariant. -/
theorem aggregator_sum_invariant_witness :
    despesas_agrupadas sampleC = .ok [("Passagem Aérea", (800 : ℚ)), ("Combustível", 200)] ∧
    ([("Passagem Aérea", (800 : ℚ)), ("Combustível", 200)].map Prod.snd).sum
      = (sampleC.map (fun r => toQ r.valorLiquido)).sum :=
  ⟨despesas_agrupadas_sampleC,
    aggregator_sum_invariant sampleC _ despesas_agrupadas_sampleC⟩

lemma filter_of_map_key (rs : List RawExpense) (c : String) :
    ((rs.map (fun r => (r.tipoDespesa, toQ r.valorLiquido))).filter (fun q => q.1 = c))
      = (rs.filter (fun r => r.tipoDespesa = c)).map
          (fun r => (r.tipoDespesa, toQ r.valorLiquido)) := by
  induction rs with
  | nil => rfl
  | cons r rs ih =>
    by_cases h : r.tipoDespesa = c
    · simp [List.filter_cons, h, ih]
    · simp [List.filter_cons, h, ih]

/-- C3: whenever the aggregation succeeds, the output has exactly one
entry per distinct category observed in the input, each entry's total is
the sum of the coerced net amounts of that category's records, and the
entries are sorted by total descending. -/
theorem aggregator_output_shape (rs : List RawExpense) (out : List (String × ℚ))
    (h : despesas_agrupadas rs = .ok out) :
    (out.map Prod.fst).Perm (rs.map (fun r => r.tipoDespesa)).dedup ∧
    (∀ p ∈ out, p.2 = ((rs.filter (fun r => r.tipoDespesa = p.1)).map
      (fun r => toQ r.valorLiquido)).sum) ∧
    List.Sorted amountGE out := by
  cases hc : coerceExpenses rs with
  | error e =>
    simp only [despesas_agrupadas, hc] at h
    exact Except.noConfusion h
  | ok rows =>
    simp only [despesas_agrupadas, hc] at h
    have hout : sort_values_desc (groupby_sum rows) = out := Except.ok.inj h
    have hrows := coerceExpenses_ok_shape rs rows hc
    have hrowsfst : rows.map Prod.fst = rs.map (fun r => r.tipoDespesa) := by
      rw [hrows, List.map_map]
      rfl
    refine ⟨?_, ?_, ?_⟩
    · have h2 : (groupby_sum rows).map Prod.fst
          = (rows.map Prod.fst).dedup.insertionSort keyLE := by
        rw [groupby_sum, List.map_map]
        exact (List.map_congr_left fun a _ => rfl).trans (List.map_id _)
      have hp1 : ((List.insertionSort amountGE (groupby_sum rows)).map Prod.fst).Perm
          ((groupby_sum rows).map Prod.fst) :=
        (List.perm_insertionSort amountGE (groupby_sum rows)).map Prod.fst
      have hp3 : ((groupby_sum rows).map Prod.fst).Perm (rows.map Prod.fst).dedup := by
        rw [h2]
        exact sortedKeys_perm rows
      have hfinal := hp1.trans hp3
      rw [hrowsfst] at hfinal
      rw [← hout, sort_values_desc]
      exact hfinal
    · intro p hp
      have hp' : p ∈ groupby_sum rows := by
        rw [← hout, sort_values_desc] at hp
        exact (List.perm_insertionSort amountGE (groupby_sum rows)).subset hp
      obtain ⟨k, hk, hkp⟩ := List.mem_map.mp hp'
      have hfst : p.1 = k := by rw [← hkp]
      have hsnd : p.2 = ((rows.filter (fun q => q.1 = k)).map Prod.snd).sum := by
        rw [← hkp]
      rw [hsnd, hfst, hrows, filter_of_map_key, List.map_map]
      rfl
    · rw [← hout, sort_values_desc]
      exact List.sorted_insertionSort amountGE (groupby_sum rows)

/-- Scenario C: the three records aggregate to exactly
[("Passagem Aérea", 800), ("Combustível", 200)], with the stated shape. -/
theorem aggregator_output_shape_witness :
    despesas_agrupadas sampleC = .ok [("Passagem Aérea", (800 : ℚ)), ("Combustível", 200)] ∧
    (([("Passagem Aérea", (800 : ℚ)), ("Combustível", 200)].map Prod.fst).Perm
      (sampleC.map (fun r => r.tipoDespesa)).dedup ∧
    (∀ p ∈ [("Passagem Aérea", (800 : ℚ)), ("Combustível", 200)],
      p.2 = ((sampleC.filter (fun r => r.tipoDespesa = p.1)).map
        (fun r => toQ r.valorLiquido)).sum) ∧
    List.Sorted amountGE [("Passagem Aérea", (800 : ℚ)), ("Combustível", 200)]) :=
  ⟨despesas_agrupadas_sampleC,
    aggregator_output_shape sampleC _ despesas_agrupadas_sampleC⟩

/-- C8: the aggregation is a pure function of the multiset of records:
permuting the input yields the identical output sequence (and repeated
application on equal inputs is definitionally identical). -/
theorem aggregator_order_independent (rs₁ rs₂ : List RawExpense) (h : rs₁.Perm rs₂) :
    despesas_agrupadas rs₁ = despesas_agrupadas rs₂ := by
  by_cases hall : ∀ r ∈ rs₁, to_numeric r.valorLiquido = .ok (toQ r.valorLiquido)
  · have hall₂ : ∀ r ∈ rs₂, to_numeric r.valorLiquido = .ok (toQ r.valorLiquido) :=
      fun r hr => hall r (h.mem_iff.mpr hr)
    have h1 := coerceExpenses_ok_of_all rs₁ hall
    have h2 := coerceExpenses_ok_of_all rs₂ hall₂
    simp only [despesas_agrupadas, h1, h2]
    rw [groupby_sum_perm _ _ (h.map (fun r => (r.tipoDespesa, toQ r.valorLiquido)))]
  · push_neg at hall
    obtain ⟨r, hr, hne⟩ := hall
    have hbad : to_numeric r.valorLiquido = .error .dataFormatError := by
      rcases to_numeric_total r.valorLiquido with hgood | hb
      · exact absurd hgood hne
      · exact hb
    have e1 := coerceExpenses_error rs₁ ⟨r, hr, hbad⟩
    have e2 := coerceExpenses_error rs₂ ⟨r, h.mem_iff.mp hr, hbad⟩
    simp only [despesas_agrupadas, e1, e2]

/-- A rotation of scenario C's records yields the identical output. -/
theorem aggregator_order_independent_witness :
    despesas_agrupadas sampleCrot = despesas_agrupadas sampleC :=
  aggregator_order_independent sampleCrot sampleC (by decide)

/-- C7 counterexample: one record with the non-numeric amount "abc".
The aggregation aborts with no CategoryTotal output — but the error is not
converted into a user-facing message at the stage boundary: the second
component of `processar_despesas` is the exception escaping to the
presentation layer (the module-level code has no try/except), so the
propagation-policy half of the claim is false on the code. -/
theorem aggregator_unhandled_fault_counterexample :
    processar_despesas sampleBad
      = ([UiMsg.info "Total de 1 registros de despesa encontrados."],
         some .dataFormatError) := by
  decide

/-- C7 amended: if any record's net amount is not numerically coercible,
the aggregation aborts entirely with a DataFormatError and no partial
CategoryTotal output (no chart, no table) — but the error is not caught at
the stage boundary: it propagates to the presentation layer as an
unhandled exception rather than a user-facing message. -/
theorem aggregator_abort_unhandled (rs : List RawExpense)
    (h : ∃ r ∈ rs, to_numeric r.valorLiquido = .error .dataFormatError) :
    despesas_agrupadas rs = .error .dataFormatError ∧
    processar_despesas rs
      = ([UiMsg.info ("Total de " ++ toString rs.length
          ++ " registros de despesa encontrados.")], some .dataFormatError) := by
  have hagg : despesas_agrupadas rs = .error .dataFormatError := by
    simp only [despesas_agrupadas, coerceExpenses_error rs h]
  refine ⟨hagg, ?_⟩
  obtain ⟨r, hr, -⟩ := h
  cases rs with
  | nil => exact absurd hr (List.not_mem_nil r)
  | cons a l => simp only [processar_despesas, hagg]

/-- The concrete bad record aborts with no output and an escaped error. -/
theorem aggregator_abort_unhandled_witness :
    despesas_agrupadas sampleBad = .error .dataFormatError ∧
    processar_despesas sampleBad
      = ([UiMsg.info ("Total de " ++ toString sampleBad.length
          ++ " registros de despesa encontrados.")], some .dataFormatError) :=
  aggregator_abort_unhandled sampleBad ⟨⟨"X", .str "abc"⟩, by decide, by decide⟩
